import Mathlib

/-!
Verification of the titanium library (Rust-style Option and Result containers
for TypeScript, with async support).

Embedding notes.
* A JavaScript object reference is modelled by a natural-number allocation id
  carried on every container instance.  Reference equality of two containers
  is equality of the embedded values, ids included; a `new` expression in the
  source corresponds to a constructor applied to a caller-supplied fresh id.
* The module constant `none` of option.ts (line 1222) is the only container
  ever constructed with the some-tag false (the OptionType class itself is
  not exported), so the tag-false variant is a process-wide singleton and the
  embedding reserves id 0 for it.
* A settled JavaScript promise is modelled as `Except`: `Except.ok` is
  fulfillment and `Except.error` is rejection.  A function call that may
  throw is modelled the same way, and methods that may throw return `Except`.
-/

/-- JVal models the JavaScript runtime values the claims mention: the falsey
primitives, integers plus a separate NaN, strings, Error instances (carrying
an allocation id and a message), Date instances (tracking only validity), and
arrays. -/
inductive JVal where
  | vUndef : JVal
  | vNull : JVal
  | vBool (b : Bool) : JVal
  | vInt (n : Int) : JVal
  | vNaN : JVal
  | vStr (s : String) : JVal
  | vErr (id : Nat) (msg : String) : JVal
  | vDate (valid : Bool) : JVal
  | vArr (elems : List JVal) : JVal

/-- JavaScript truthiness on the constructors of JVal: exactly undefined,
null, false, 0, NaN and the empty string are falsey. -/
def JVal.falsey : JVal → Bool
  | .vUndef => true
  | .vNull => true
  | .vBool b => !b
  | .vInt n => n == 0
  | .vNaN => true
  | .vStr s => s == ""
  | _ => false

/-- The instanceof-Error test. -/
def JVal.isErrorInst : JVal → Bool
  | .vErr _ _ => true
  | _ => false

/-- An invalid Date instance (a Date whose time value is NaN). -/
def JVal.isInvalidDate : JVal → Bool
  | .vDate valid => !valid
  | _ => false

/-- The strict self-inequality test used by nonNull: in JavaScript the
expression x !== x holds exactly when x is NaN, the only value not strictly
equal to itself. -/
def JVal.selfStrictNeq : JVal → Bool
  | .vNaN => true
  | _ => false

/-- The strict equality test against undefined. -/
def JVal.isUndef : JVal → Bool
  | .vUndef => true
  | _ => false

/-- The strict equality test against null. -/
def JVal.isNull : JVal → Bool
  | .vNull => true
  | _ => false

mutual

/-- String(v) coercion for the constructors of JVal.  String conversion of a
valid Date depends on the ambient time zone and is unused by every claim, so
it receives a fixed placeholder; all other cases follow the JavaScript
ToString rules (array elements are joined with commas, with null and
undefined elements rendered empty). -/
def JVal.jsString : JVal → String
  | .vUndef => "undefined"
  | .vNull => "null"
  | .vBool b => cond b "true" "false"
  | .vInt n => toString n
  | .vNaN => "NaN"
  | .vStr s => s
  | .vErr _ msg => "Error: " ++ msg
  | .vDate valid => cond valid "[Date]" "Invalid Date"
  | .vArr elems => JVal.jsStringItems elems

/-- ToString of a single array element inside Array.prototype.join: null and
undefined render as the empty string, every other value as its jsString. -/
def JVal.jsStringItem : JVal → String
  | .vUndef => ""
  | .vNull => ""
  | .vBool b => cond b "true" "false"
  | .vInt n => toString n
  | .vNaN => "NaN"
  | .vStr s => s
  | .vErr _ msg => "Error: " ++ msg
  | .vDate valid => cond valid "[Date]" "Invalid Date"
  | .vArr elems => JVal.jsStringItems elems

/-- Array.prototype.join with the comma separator. -/
def JVal.jsStringItems : List JVal → String
  | [] => ""
  | [x] => JVal.jsStringItem x
  | x :: y :: rest => JVal.jsStringItem x ++ "," ++ JVal.jsStringItems (y :: rest)

end

/-- toError of result.ts (lines 1653-1655): the value itself when it is
already an Error instance, otherwise a new Error (fresh allocation id) whose
message is the stringified value. -/
def toError (err : JVal) (fresh : Nat) : JVal :=
  match err with
  | JVal.vErr i m => JVal.vErr i m
  | v => JVal.vErr fresh v.jsString

/-- The iteration protocol on JVal: arrays yield their elements and strings
yield their characters as one-character strings; on every other constructor
the Symbol.iterator property is not a function. -/
def JVal.jsIterate : JVal → Option (List JVal)
  | .vArr elems => Option.some elems
  | .vStr s => Option.some (s.toList.map (fun c => JVal.vStr c.toString))
  | _ => Option.none

/-- The OptionType container of option.ts: a some-tag plus payload, with the
allocation id of the instance.  The class is not exported and the only
tag-false instance ever constructed is the frozen module constant of line
1222, so the tag-false variant carries the reserved singleton id 0 in every
reachable value. -/
inductive OptionC (α : Type) where
  | mkSome (id : Nat) (val : α) : OptionC α
  | mkNone (id : Nat) : OptionC α

/-- The shared frozen None instance of option.ts (line 1222). -/
def noneSingleton {α : Type} : OptionC α := OptionC.mkNone 0

/-- The allocation id of a container instance. -/
def OptionC.idOf {α : Type} : OptionC α → Nat
  | .mkSome i _ => i
  | .mkNone i => i

/-- isSome of option.ts: the some-tag. -/
def OptionC.isSome {α : Type} : OptionC α → Bool
  | .mkSome _ _ => true
  | .mkNone _ => false

/-- isNone of option.ts: the negated some-tag. -/
def OptionC.isNone {α : Type} : OptionC α → Bool
  | .mkSome _ _ => false
  | .mkNone _ => true

/-- map of option.ts (lines 533-535): a newly constructed Some container for
a Some receiver, the shared none constant otherwise. -/
def OptionC.map {α β : Type} (o : OptionC α) (f : α → β) (fresh : Nat) : OptionC β :=
  match o with
  | .mkSome _ v => .mkSome fresh (f v)
  | .mkNone _ => noneSingleton

/-- filter of option.ts (lines 146-148): the receiver itself when it is Some
and the predicate passes, the shared none constant otherwise. -/
def OptionC.filter {α : Type} (o : OptionC α) (f : α → Bool) : OptionC α :=
  match o with
  | .mkSome _ v => if f v then o else noneSingleton
  | .mkNone _ => noneSingleton

/-- or of option.ts (lines 356-358): the receiver itself when Some, the
alternative otherwise. -/
def OptionC.or {α : Type} (o : OptionC α) (optb : OptionC α) : OptionC α :=
  match o with
  | .mkSome _ _ => o
  | .mkNone _ => optb

/-- and of option.ts (lines 441-443): the alternative when the receiver is
Some, the shared none constant otherwise. -/
def OptionC.and {α β : Type} (o : OptionC α) (optb : OptionC β) : OptionC β :=
  match o with
  | .mkSome _ _ => optb
  | .mkNone _ => noneSingleton

/-- andThen of option.ts (lines 491-493): the callback result on the payload
when the receiver is Some, the shared none constant otherwise. -/
def OptionC.andThen {α β : Type} (o : OptionC α) (f : α → OptionC β) : OptionC β :=
  match o with
  | .mkSome _ v => f v
  | .mkNone _ => noneSingleton

/-- unwrap of option.ts (lines 266-272): the payload, or a thrown Error with
the fixed message. -/
def OptionC.unwrap {α : Type} : OptionC α → Except String α
  | .mkSome _ v => Except.ok v
  | .mkNone _ => Except.error "expected Some, got None"

/-- The Symbol.iterator implementation of option.ts (lines 33-37), modelled
as the full sequence the produced iterator yields, or the TypeError raised at
iterator construction when the Some payload is not iterable.  A None receiver
produces the iterator of the shared empty array, which is immediately done. -/
def OptionC.iter : OptionC JVal → Except String (List JVal)
  | .mkSome _ v =>
    match v.jsIterate with
    | Option.some elems => Except.ok elems
    | Option.none => Except.error "is not a function"
  | .mkNone _ => Except.ok []

/-- Modelled from the spec: isTruthy of common.ts, which is not present under
src/.  Section 4.1 specifies that the loose conversion sends falsey values
and invalid dates to Absent (Error instances are excluded separately at the
call site in option.ts line 1299), so isTruthy holds exactly on values that
are neither JavaScript-falsey nor invalid Date instances. -/
def isTruthy (v : JVal) : Bool := !v.falsey && !v.isInvalidDate

/-- from of option.ts (lines 1298-1300): Some of the value when it is truthy
and not an Error instance, the shared none constant otherwise. -/
def OptionC.fromVal (v : JVal) (fresh : Nat) : OptionC JVal :=
  if isTruthy v && !v.isErrorInst then .mkSome fresh v else noneSingleton

/-- nonNull of option.ts (lines 1312-1316): the shared none constant when the
value is strictly equal to undefined or null or not strictly equal to itself,
Some of the value otherwise. -/
def OptionC.nonNull (v : JVal) (fresh : Nat) : OptionC JVal :=
  if v.isUndef || v.isNull || v.selfStrictNeq then noneSingleton
  else .mkSome fresh v

/-- safe of option.ts (lines 1366-1383) applied to a function: Some of the
returned value, or the shared none constant when the call threw. -/
def OptionC.safeFn {α ε : Type} (fn : Except ε α) (fresh : Nat) : OptionC α :=
  match fn with
  | Except.ok v => .mkSome fresh v
  | Except.error _ => noneSingleton

/-- safe of option.ts (lines 1366-1383) applied to a promise: the underlying
promise of the produced OptionAsync, obtained by attaching both a fulfillment
handler (Some of the value) and a rejection handler (the shared none
constant), so the produced promise always fulfills. -/
def OptionC.safeProm {α ε : Type} (p : Except ε α) (fresh : Nat) : Except ε (OptionC α) :=
  match p with
  | Except.ok v => Except.ok (OptionC.mkSome fresh v)
  | Except.error _ => Except.ok noneSingleton

/-- The wrapper of option.ts (lines 1451-1453), the counterpart the spec
calls unsafe: it places the provided promise of an Option directly inside a
new OptionAsync, so the produced async optional settles exactly as the
provided promise does. -/
def OptionC.promWrap {α ε : Type} (p : Except ε (OptionC α)) : Except ε (OptionC α) := p

/-- The loop body of all in option.ts (lines 1405-1416), with the collected
payloads threaded explicitly. -/
def OptionC.allGo {α : Type} (fresh : Nat) : List (OptionC α) → List α → OptionC (List α)
  | [], values => .mkSome fresh values
  | o :: rest, values =>
    match o with
    | .mkSome _ v => OptionC.allGo fresh rest (values ++ [v])
    | .mkNone _ => noneSingleton

/-- all of option.ts (lines 1405-1416): iterate the arguments collecting
unwrapped payloads; the first None short-circuits to the shared none
constant, otherwise a new Some of the collected array is constructed. -/
def OptionC.allO {α : Type} (opts : List (OptionC α)) (fresh : Nat) : OptionC (List α) :=
  OptionC.allGo fresh opts []

/-- The ResultType container of result.ts: an ok-tag plus payload, with the
allocation id of the instance.  Neither variant is a singleton. -/
inductive ResultC (α ε : Type) where
  | mkOk (id : Nat) (val : α) : ResultC α ε
  | mkErr (id : Nat) (err : ε) : ResultC α ε

/-- isOk of result.ts: the ok-tag. -/
def ResultC.isOk {α ε : Type} : ResultC α ε → Bool
  | .mkOk _ _ => true
  | .mkErr _ _ => false

/-- isErr of result.ts: the negated ok-tag. -/
def ResultC.isErr {α ε : Type} : ResultC α ε → Bool
  | .mkOk _ _ => false
  | .mkErr _ _ => true

/-- The loop body of all in result.ts (lines 1759-1772), with the collected
payloads threaded explicitly; the first Err is returned unchanged (the very
instance, id included). -/
def ResultC.allGo {α ε : Type} (fresh : Nat) :
    List (ResultC α ε) → List α → ResultC (List α) ε
  | [], acc => .mkOk fresh acc
  | r :: rest, acc =>
    match r with
    | .mkOk _ v => ResultC.allGo fresh rest (acc ++ [v])
    | .mkErr i e => .mkErr i e

/-- all of result.ts (lines 1759-1772). -/
def ResultC.allR {α ε : Type} (rs : List (ResultC α ε)) (fresh : Nat) :
    ResultC (List α) ε :=
  ResultC.allGo fresh rs []

/-- The loop body of any in result.ts (lines 1794-1807), with the collected
failure payloads threaded explicitly; the first Ok is returned unchanged (the
very instance, id included). -/
def ResultC.anyGo {α ε : Type} (fresh : Nat) :
    List (ResultC α ε) → List ε → ResultC α (List ε)
  | [], acc => .mkErr fresh acc
  | r :: rest, acc =>
    match r with
    | .mkOk i v => .mkOk i v
    | .mkErr _ e => ResultC.anyGo fresh rest (acc ++ [e])

/-- any of result.ts (lines 1794-1807). -/
def ResultC.anyR {α ε : Type} (rs : List (ResultC α ε)) (fresh : Nat) :
    ResultC α (List ε) :=
  ResultC.anyGo fresh rs []

/-- The success payloads of a list of results, in order. -/
def ResultC.okPayloads {α ε : Type} : List (ResultC α ε) → List α
  | [] => []
  | ResultC.mkOk _ v :: rest => v :: ResultC.okPayloads rest
  | ResultC.mkErr _ _ :: rest => ResultC.okPayloads rest

/-- The failure payloads of a list of results, in order. -/
def ResultC.errPayloads {α ε : Type} : List (ResultC α ε) → List ε
  | [] => []
  | ResultC.mkOk _ _ :: rest => ResultC.errPayloads rest
  | ResultC.mkErr _ e :: rest => e :: ResultC.errPayloads rest

/-- unwrap of result.ts (lines 348-354): the success payload, or a throw of
toError applied to the failure payload (the fresh id is the allocation id of
the Error constructed when the payload is not already an Error instance). -/
def ResultC.unwrapJ (fresh : Nat) : ResultC JVal JVal → Except JVal JVal
  | .mkOk _ v => Except.ok v
  | .mkErr _ e => Except.error (toError e fresh)

/-- unwrapErr of result.ts (lines 375-381): the failure payload, or a throw
of toError applied to the success payload. -/
def ResultC.unwrapErrJ (fresh : Nat) : ResultC JVal JVal → Except JVal JVal
  | .mkErr _ e => Except.ok e
  | .mkOk _ v => Except.error (toError v fresh)

/-- The Symbol.iterator implementation of result.ts (lines 37-41), modelled
like its option.ts twin: an Ok of an iterable payload yields the payload
sequence, an Err yields the empty, already-done iterator, and an Ok of a
non-iterable payload raises at iterator construction. -/
def ResultC.iterR {ε : Type} : ResultC JVal ε → Except String (List JVal)
  | .mkOk _ v =>
    match v.jsIterate with
    | Option.some elems => Except.ok elems
    | Option.none => Except.error "is not a function"
  | .mkErr _ _ => Except.ok []

/-- Modelled from the spec: subjects handled by the mapped form of the
pattern-matching engine (match.ts is not present under src/).  A subject is a
nesting of the two container families over base values, per section 4.5. -/
inductive MVal where
  | mOk (v : MVal) : MVal
  | mErr (v : MVal) : MVal
  | mSome (v : MVal) : MVal
  | mNone : MVal
  | mBase (n : Nat) : MVal

/-- Modelled from the spec: a mapped branch specification of the
pattern-matching engine (match.ts is not present under src/).  A key of the
mapped record holds either a result-producing function of the unwrapped
payload or a nested specification; a specification carries an optional
branch per variant tag plus an optional default. -/
inductive MSpec (ρ : Type) where
  | fn (f : MVal → ρ) : MSpec ρ
  | nested (onOk : Option (MSpec ρ)) (onErr : Option (MSpec ρ))
      (onSome : Option (MSpec ρ)) (onNone : Option (MSpec ρ))
      (dflt : Option (MVal → ρ)) : MSpec ρ

/-- Modelled from the spec, section 4.5 mapped algorithm (match.ts is not
present under src/): look up the subject variant tag; a function branch is
invoked with the unwrapped payload; a nested specification recurses with the
payload as the new subject; when the tag has no branch, or the nested call
propagates absence, the default declared at the current nesting level applies
if present, otherwise absence propagates to the enclosing level (the
closest-default policy).  An overall absence is the Exhausted failure. -/
def matchMapped {ρ : Type} : MVal → MSpec ρ → Option ρ
  | v, MSpec.fn f => Option.some (f v)
  | MVal.mOk p, MSpec.nested (Option.some b) _ _ _ dflt =>
    (match matchMapped p b with
     | Option.some r => Option.some r
     | Option.none => dflt.map fun d => d (MVal.mOk p))
  | MVal.mErr p, MSpec.nested _ (Option.some b) _ _ dflt =>
    (match matchMapped p b with
     | Option.some r => Option.some r
     | Option.none => dflt.map fun d => d (MVal.mErr p))
  | MVal.mSome p, MSpec.nested _ _ (Option.some b) _ dflt =>
    (match matchMapped p b with
     | Option.some r => Option.some r
     | Option.none => dflt.map fun d => d (MVal.mSome p))
  | MVal.mNone, MSpec.nested _ _ _ (Option.some b) dflt =>
    (match matchMapped MVal.mNone b with
     | Option.some r => Option.some r
     | Option.none => dflt.map fun d => d MVal.mNone)
  | v, MSpec.nested _ _ _ _ dflt => dflt.map fun d => d v

/-- The branch specification of the closest-default test: an Ok branch whose
nested Some branch holds an Ok function branch and an inner default, plus an
outer default at the top level. -/
def c9spec {ρ : Type} (f : MVal → ρ) (ri ro : ρ) : MSpec ρ :=
  MSpec.nested
    (Option.some (MSpec.nested Option.none Option.none
      (Option.some (MSpec.nested (Option.some (MSpec.fn f)) Option.none
        Option.none Option.none (Option.some (fun _ => ri))))
      Option.none Option.none))
    Option.none Option.none Option.none (Option.some (fun _ => ro))

/-- C1: present(v).map(f).unwrap() equals f(v) for every payload and
function, and map on the shared Absent singleton returns that very singleton
instance (id preserved, no new empty container allocated). -/
theorem c1_map_present_and_absent_identity {α β : Type}
    (v : α) (f : α → β) (i fresh : Nat) :
    ((OptionC.mkSome i v).map f fresh).unwrap = Except.ok (f v) ∧
    (noneSingleton : OptionC α).map f fresh = noneSingleton :=
  ⟨rfl, rfl⟩

/-- C2 counterexample: filter applied to a Present container with an
always-passing predicate returns the receiver instance itself (allocation id
5 preserved), not a new container instance, refuting the claim that every
sync combinator producing a Present result returns a new instance. -/
theorem c2_counterexample_filter_returns_receiver :
    (OptionC.mkSome 5 (1 : Nat)).filter (fun _ => true) = OptionC.mkSome 5 1 :=
  rfl

/-- C2 amended: sync combinators never produce a non-singleton Absent result:
filter returns the receiver or the none singleton; or returns the receiver or
the alternative; and returns the alternative or the singleton; andThen
returns the callback result or the singleton; map returns the singleton for
an Absent receiver and a container carrying the supplied fresh id for a
Present receiver, so with a genuinely fresh id the map result is a distinct
new instance; the receiver value itself is never changed (immutability is
structural in the embedding, matching the readonly fields and the frozen
none constant in the source). -/
theorem c2_amended_combinator_identity {α β : Type}
    (o : OptionC α) (b : OptionC α) (c : OptionC β)
    (p : α → Bool) (f : α → OptionC β) (g : α → β) (fresh : Nat) :
    (o.filter p = o ∨ o.filter p = noneSingleton) ∧
    (o.or b = o ∨ o.or b = b) ∧
    (o.and c = c ∨ o.and c = noneSingleton) ∧
    ((∃ i v, o = OptionC.mkSome i v ∧ o.andThen f = f v) ∨ o.andThen f = noneSingleton) ∧
    (o = noneSingleton → o.map g fresh = noneSingleton) ∧
    (∀ i v, o = OptionC.mkSome i v → o.map g fresh = OptionC.mkSome fresh (g v)) ∧
    (∀ i v, o = OptionC.mkSome i v → fresh ≠ i → (o.map g fresh).idOf ≠ o.idOf) := by
  cases o with
  | mkSome i v =>
    refine ⟨?_, Or.inl rfl, Or.inl rfl, Or.inl ⟨i, v, rfl, rfl⟩, ?_, ?_, ?_⟩
    · by_cases h : p v = true
      · exact Or.inl (by simp [OptionC.filter, h])
      · exact Or.inr (by simp [OptionC.filter, h])
    · intro h
      exact absurd h (by simp [noneSingleton])
    · intro i2 v2 h
      injection h with h1 h2
      subst h1
      subst h2
      rfl
    · intro i2 v2 h hne
      injection h with h1 h2
      subst h1
      subst h2
      simpa [OptionC.map, OptionC.idOf] using hne
  | mkNone i =>
    refine ⟨Or.inr rfl, Or.inr rfl, Or.inr rfl, Or.inr rfl, fun _ => rfl, ?_, ?_⟩
    · intro i2 v2 h
      exact absurd h (by simp)
    · intro i2 v2 h
      exact absurd h (by simp)

/-- C2 amended, witness: at concrete containers, map allocates a new instance
whose allocation id differs from the receiver id. -/
theorem c2_amended_combinator_identity_witness :
    ((OptionC.mkSome 1 (7 : Nat)).map (fun n => n) 3 = OptionC.mkSome 3 7) ∧
    ((OptionC.mkSome 1 (7 : Nat)).map (fun n => n) 3).idOf
      ≠ (OptionC.mkSome 1 (7 : Nat)).idOf := by
  have h := c2_amended_combinator_identity (OptionC.mkSome 1 (7 : Nat))
    (OptionC.mkSome 2 8) (OptionC.mkSome 2 8) (fun _ => true)
    (fun v => OptionC.mkSome 9 v) (fun n => n) 3
  exact ⟨h.2.2.2.2.2.1 1 7 rfl, h.2.2.2.2.2.2 1 7 rfl (by decide)⟩

/-- The all loop of result.ts collects the success payloads in order when
every result is Ok. -/
theorem ResultC.allGo_ok {α ε : Type} (fresh : Nat) (rs : List (ResultC α ε)) :
    ∀ acc : List α, (∀ r ∈ rs, r.isOk = true) →
      ResultC.allGo fresh rs acc = ResultC.mkOk fresh (acc ++ ResultC.okPayloads rs) := by
  induction rs with
  | nil =>
    intro acc _
    simp [ResultC.allGo, ResultC.okPayloads]
  | cons r rest ih =>
    intro acc h
    cases r with
    | mkOk i v =>
      have hrest : ∀ x ∈ rest, ResultC.isOk x = true :=
        fun x hx => h x (List.mem_cons_of_mem _ hx)
      calc ResultC.allGo fresh (ResultC.mkOk i v :: rest) acc
          = ResultC.allGo fresh rest (acc ++ [v]) := rfl
        _ = ResultC.mkOk fresh ((acc ++ [v]) ++ ResultC.okPayloads rest) := ih _ hrest
        _ = ResultC.mkOk fresh (acc ++ ResultC.okPayloads (ResultC.mkOk i v :: rest)) := by
            simp [ResultC.okPayloads]
    | mkErr i e =>
      have := h _ (List.mem_cons_self _ _)
      simp [ResultC.isOk] at this

/-- The all loop of result.ts returns the first Err unchanged: same
allocation id, same payload. -/
theorem ResultC.allGo_firstErr {α ε : Type} (fresh : Nat) (rs : List (ResultC α ε)) :
    ∀ (acc : List α) (i : Nat) (e : ε),
      rs.find? (fun x => x.isErr) = Option.some (ResultC.mkErr i e) →
      ResultC.allGo fresh rs acc = ResultC.mkErr i e := by
  induction rs with
  | nil =>
    intro acc i e h
    simp [List.find?] at h
  | cons r0 rest ih =>
    intro acc i e h
    cases r0 with
    | mkOk i0 v =>
      simp [List.find?, ResultC.isErr] at h
      exact ih (acc ++ [v]) i e h
    | mkErr i0 e0 =>
      simp [List.find?, ResultC.isErr] at h
      obtain ⟨h1, h2⟩ := h
      subst h1
      subst h2
      rfl

/-- The any loop of result.ts collects the failure payloads in order when
every result is Err. -/
theorem ResultC.anyGo_allErr {α ε : Type} (fresh : Nat) (rs : List (ResultC α ε)) :
    ∀ acc : List ε, (∀ r ∈ rs, r.isErr = true) →
      ResultC.anyGo fresh rs acc = ResultC.mkErr fresh (acc ++ ResultC.errPayloads rs) := by
  induction rs with
  | nil =>
    intro acc _
    simp [ResultC.anyGo, ResultC.errPayloads]
  | cons r rest ih =>
    intro acc h
    cases r with
    | mkErr i e =>
      have hrest : ∀ x ∈ rest, ResultC.isErr x = true :=
        fun x hx => h x (List.mem_cons_of_mem _ hx)
      calc ResultC.anyGo fresh (ResultC.mkErr i e :: rest) acc
          = ResultC.anyGo fresh rest (acc ++ [e]) := rfl
        _ = ResultC.mkErr fresh ((acc ++ [e]) ++ ResultC.errPayloads rest) := ih _ hrest
        _ = ResultC.mkErr fresh (acc ++ ResultC.errPayloads (ResultC.mkErr i e :: rest)) := by
            simp [ResultC.errPayloads]
    | mkOk i v =>
      have := h _ (List.mem_cons_self _ _)
      simp [ResultC.isErr] at this

/-- The any loop of result.ts returns the first Ok unchanged: same
allocation id, same payload. -/
theorem ResultC.anyGo_firstOk {α ε : Type} (fresh : Nat) (rs : List (ResultC α ε)) :
    ∀ (acc : List ε) (i : Nat) (v : α),
      rs.find? (fun x => x.isOk) = Option.some (ResultC.mkOk i v) →
      ResultC.anyGo fresh rs acc = ResultC.mkOk i v := by
  induction rs with
  | nil =>
    intro acc i v h
    simp [List.find?] at h
  | cons r0 rest ih =>
    intro acc i v h
    cases r0 with
    | mkErr i0 e =>
      simp [List.find?, ResultC.isOk] at h
      exact ih (acc ++ [e]) i v h
    | mkOk i0 v0 =>
      simp [List.find?, ResultC.isOk] at h
      obtain ⟨h1, h2⟩ := h
      subst h1
      subst h2
      rfl

/-- C3: all returns Ok of the success payloads in argument order exactly when
every argument is Ok, and otherwise returns the first Err instance found,
unchanged (id included, so it is the very argument instance, with later
payloads uncollected); any returns the first Ok instance found, unchanged,
and otherwise Err of all failure payloads in argument order. -/
theorem c3_all_any_aggregates {α ε : Type} (rs : List (ResultC α ε)) (fresh : Nat) :
    ((∀ r ∈ rs, r.isOk = true) →
      ResultC.allR rs fresh = ResultC.mkOk fresh (ResultC.okPayloads rs)) ∧
    (∀ i e, rs.find? (fun x => x.isErr) = Option.some (ResultC.mkErr i e) →
      ResultC.allR rs fresh = ResultC.mkErr i e) ∧
    ((ResultC.allR rs fresh).isOk = true ↔ ∀ r ∈ rs, r.isOk = true) ∧
    (∀ i v, rs.find? (fun x => x.isOk) = Option.some (ResultC.mkOk i v) →
      ResultC.anyR rs fresh = ResultC.mkOk i v) ∧
    ((∀ r ∈ rs, r.isErr = true) →
      ResultC.anyR rs fresh = ResultC.mkErr fresh (ResultC.errPayloads rs)) := by
  refine ⟨?_, ?_, ?_, ?_, ?_⟩
  · intro h
    simpa [ResultC.allR] using ResultC.allGo_ok fresh rs [] h
  · intro i e h
    exact ResultC.allGo_firstErr fresh rs [] i e h
  · cases hfind : rs.find? (fun x => x.isErr) with
    | none =>
      have hall : ∀ r ∈ rs, r.isOk = true := by
        intro r hr
        have h2 := List.find?_eq_none.mp hfind r hr
        cases r with
        | mkOk i v => rfl
        | mkErr i e => exact absurd rfl h2
      have heq := ResultC.allGo_ok fresh rs [] hall
      constructor
      · intro _
        exact hall
      · intro _
        show (ResultC.allGo fresh rs []).isOk = true
        rw [heq]
        rfl
    | some r =>
      have hmem : r ∈ rs := List.mem_of_find?_eq_some hfind
      have hrerr := List.find?_some hfind
      cases r with
      | mkOk i v => simp [ResultC.isErr] at hrerr
      | mkErr i e =>
        have heq := ResultC.allGo_firstErr fresh rs [] i e hfind
        constructor
        · intro hok
          rw [show ResultC.allR rs fresh = ResultC.allGo fresh rs [] from rfl, heq] at hok
          simp [ResultC.isOk] at hok
        · intro hall
          have := hall _ hmem
          simp [ResultC.isOk] at this
  · intro i v h
    exact ResultC.anyGo_firstOk fresh rs [] i v h
  · intro h
    simpa [ResultC.anyR] using ResultC.anyGo_allErr fresh rs [] h

/-- C3 witness: the aggregate short-circuit examples of the spec evaluated
concretely; the first Err wins for all, the first Ok wins for any. -/
theorem c3_all_any_aggregates_witness :
    ResultC.allR [ResultC.mkOk 1 (1 : Int), ResultC.mkErr 2 "x", ResultC.mkOk 3 2] 9
      = ResultC.mkErr 2 "x" ∧
    ResultC.anyR [ResultC.mkErr 1 "a", ResultC.mkErr 2 "b", ResultC.mkOk 3 (5 : Int)] 9
      = ResultC.mkOk 3 5 := by
  constructor
  · exact (c3_all_any_aggregates _ 9).2.1 2 "x" rfl
  · exact (c3_all_any_aggregates _ 9).2.2.2.1 3 5 rfl

/-- C4: unwrap returns the success payload on an Ok; on an Err it throws the
failure payload itself when that payload is an Error instance (allocation id
preserved, so it is the very same Error), and otherwise a new Error whose
message is the stringified payload; unwrapErr is the exact mirror. -/
theorem c4_unwrap_unwrapErr_mirror (v e : JVal) (i fresh j : Nat) (m : String) :
    ResultC.unwrapJ fresh (ResultC.mkOk i v) = Except.ok v ∧
    ResultC.unwrapJ fresh (ResultC.mkErr i (JVal.vErr j m)) = Except.error (JVal.vErr j m) ∧
    (e.isErrorInst = false →
      ResultC.unwrapJ fresh (ResultC.mkErr i e) = Except.error (JVal.vErr fresh e.jsString)) ∧
    ResultC.unwrapErrJ fresh (ResultC.mkErr i e) = Except.ok e ∧
    ResultC.unwrapErrJ fresh (ResultC.mkOk i (JVal.vErr j m)) = Except.error (JVal.vErr j m) ∧
    (v.isErrorInst = false →
      ResultC.unwrapErrJ fresh (ResultC.mkOk i v) = Except.error (JVal.vErr fresh v.jsString)) := by
  refine ⟨rfl, rfl, ?_, rfl, rfl, ?_⟩
  · intro h
    cases e <;> simp [ResultC.unwrapJ, toError, JVal.isErrorInst] at h ⊢
  · intro h
    cases v <;> simp [ResultC.unwrapErrJ, toError, JVal.isErrorInst] at h ⊢

/-- C4 witness: a non-Error failure payload is thrown as a new Error built
from its stringified form, and an Error payload is thrown as itself. -/
theorem c4_unwrap_unwrapErr_mirror_witness :
    ResultC.unwrapJ 9 (ResultC.mkErr 1 (JVal.vInt 1)) = Except.error (JVal.vErr 9 "1") ∧
    ResultC.unwrapErrJ 9 (ResultC.mkOk 1 (JVal.vInt 2)) = Except.error (JVal.vErr 9 "2") := by
  constructor
  · exact (c4_unwrap_unwrapErr_mirror (JVal.vInt 2) (JVal.vInt 1) 1 9 0 "").2.2.1 rfl
  · exact (c4_unwrap_unwrapErr_mirror (JVal.vInt 2) (JVal.vInt 1) 1 9 0 "").2.2.2.2.2 rfl

/-- C5: the safe constructor converts a function call into Some of the
returned value or the none singleton when the call threw, and converts a
promise into an async optional whose underlying promise always fulfills,
carrying Some of the resolved value or the none singleton on rejection; the
thrown value or rejection never escapes to the caller. -/
theorem c5_safe_captures {α ε : Type} (v : α) (e : ε) (fresh : Nat) :
    OptionC.safeFn (Except.ok v : Except ε α) fresh = OptionC.mkSome fresh v ∧
    OptionC.safeFn (Except.error e : Except ε α) fresh = noneSingleton ∧
    OptionC.safeProm (Except.ok v : Except ε α) fresh = Except.ok (OptionC.mkSome fresh v) ∧
    OptionC.safeProm (Except.error e : Except ε α) fresh = Except.ok noneSingleton ∧
    (∀ c : Except ε α, ∃ o : OptionC α, OptionC.safeProm c fresh = Except.ok o) := by
  refine ⟨rfl, rfl, rfl, rfl, ?_⟩
  intro c
  cases c with
  | ok v2 => exact ⟨OptionC.mkSome fresh v2, rfl⟩
  | error e2 => exact ⟨noneSingleton, rfl⟩

/-- C6 counterexample: wrapping a promise that resolves to the Absent
singleton yields an async optional that resolves to that same Absent value,
which is not Present, refuting the claim that the resulting async optional
resolves to Present of the resolved value for every promise. -/
theorem c6_counterexample_promWrap_not_present :
    OptionC.promWrap (Except.ok (noneSingleton : OptionC Nat) : Except Unit (OptionC Nat))
      = Except.ok noneSingleton ∧
    (noneSingleton : OptionC Nat).isSome = false :=
  ⟨rfl, rfl⟩

/-- C6 amended: the wrapper takes a promise that already carries a sync
optional and exposes exactly that deferred computation: the produced async
optional resolves to the very optional the promise resolves to, without
wrapping it in Present, and a rejection propagates unchanged to whatever
awaits the wrapper. -/
theorem c6_amended_promWrap_identity {α ε : Type} (p : Except ε (OptionC α)) :
    OptionC.promWrap p = p := rfl

/-- Bool case helper for the loose-conversion characterization. -/
theorem boolAux_and_eq_false (a b c : Bool) :
    (((!a && !b) && !c) = false) ↔ (a = true ∨ c = true ∨ b = true) := by
  cases a <;> cases b <;> cases c <;> decide

/-- The loose conversion produces the none singleton exactly when its guard
fails. -/
theorem OptionC.fromVal_eq_none_iff (v : JVal) (fresh : Nat) :
    OptionC.fromVal v fresh = noneSingleton ↔
      ((isTruthy v && !v.isErrorInst) = false) := by
  unfold OptionC.fromVal
  by_cases h : (isTruthy v && !v.isErrorInst) = true
  · simp [h, noneSingleton]
  · simp only [Bool.not_eq_true] at h
    simp [h, noneSingleton]

/-- The non-null conversion produces the none singleton exactly when its
guard holds. -/
theorem OptionC.nonNull_eq_none_iff (v : JVal) (fresh : Nat) :
    OptionC.nonNull v fresh = noneSingleton ↔
      ((v.isUndef || v.isNull || v.selfStrictNeq) = true) := by
  unfold OptionC.nonNull
  by_cases h : (v.isUndef || v.isNull || v.selfStrictNeq) = true
  · simp [h, noneSingleton]
  · simp only [Bool.not_eq_true] at h
    simp [h, noneSingleton]

/-- C7: the loose conversion returns the Absent singleton exactly when the
value is falsey, an Error instance, or an invalid Date, and Present of the
value otherwise; the non-null conversion returns the Absent singleton exactly
when the value is undefined, null, or NaN, and Present of the value
otherwise. -/
theorem c7_fromVal_nonNull (v : JVal) (fresh : Nat) :
    (OptionC.fromVal v fresh = noneSingleton ↔
      (v.falsey = true ∨ v.isErrorInst = true ∨ v.isInvalidDate = true)) ∧
    (v.falsey = false → v.isErrorInst = false → v.isInvalidDate = false →
      OptionC.fromVal v fresh = OptionC.mkSome fresh v) ∧
    (OptionC.nonNull v fresh = noneSingleton ↔
      (v = JVal.vUndef ∨ v = JVal.vNull ∨ v = JVal.vNaN)) ∧
    (v ≠ JVal.vUndef → v ≠ JVal.vNull → v ≠ JVal.vNaN →
      OptionC.nonNull v fresh = OptionC.mkSome fresh v) := by
  refine ⟨?_, ?_, ?_, ?_⟩
  · rw [OptionC.fromVal_eq_none_iff]
    show (((!v.falsey && !v.isInvalidDate) && !v.isErrorInst) = false) ↔ _
    exact boolAux_and_eq_false v.falsey v.isInvalidDate v.isErrorInst
  · intro h1 h2 h3
    simp [OptionC.fromVal, isTruthy, h1, h2, h3]
  · rw [OptionC.nonNull_eq_none_iff]
    cases v <;> simp [JVal.isUndef, JVal.isNull, JVal.selfStrictNeq]
  · intro h1 h2 h3
    cases v <;>
      simp_all [OptionC.nonNull, JVal.isUndef, JVal.isNull, JVal.selfStrictNeq]

/-- C7 witness: a plain truthy number converts to Present under both
conversion constructors. -/
theorem c7_fromVal_nonNull_witness :
    OptionC.fromVal (JVal.vInt 5) 3 = OptionC.mkSome 3 (JVal.vInt 5) ∧
    OptionC.nonNull (JVal.vInt 5) 3 = OptionC.mkSome 3 (JVal.vInt 5) := by
  constructor
  · exact (c7_fromVal_nonNull (JVal.vInt 5) 3).2.1 (by decide) (by decide) (by decide)
  · exact (c7_fromVal_nonNull (JVal.vInt 5) 3).2.2.2 (by simp) (by simp) (by simp)

/-- C8: a Present of an array payload yields the payload elements and is then
done, the Absent singleton yields the empty already-done iterator, and a
Present of a non-iterable payload raises a not-a-function TypeError at
iterator construction rather than silently yielding nothing; the Result
iterator mirrors this, an Err iterating as empty. -/
theorem c8_iteration_protocol (xs : List JVal) (v e : JVal) (i j : Nat) :
    OptionC.iter (OptionC.mkSome i (JVal.vArr xs)) = Except.ok xs ∧
    OptionC.iter (noneSingleton : OptionC JVal) = Except.ok [] ∧
    (v.jsIterate = Option.none →
      OptionC.iter (OptionC.mkSome i v) = Except.error "is not a function") ∧
    ResultC.iterR (ResultC.mkOk j (JVal.vArr xs) : ResultC JVal JVal) = Except.ok xs ∧
    ResultC.iterR (ResultC.mkErr j e : ResultC JVal JVal) = Except.ok [] ∧
    (v.jsIterate = Option.none →
      ResultC.iterR (ResultC.mkOk j v : ResultC JVal JVal)
        = Except.error "is not a function") := by
  refine ⟨rfl, rfl, ?_, rfl, rfl, ?_⟩
  · intro h
    simp [OptionC.iter, h]
  · intro h
    simp [ResultC.iterR, h]

/-- C8 witness: present of the two-element array iterates to those elements,
and present of a plain number raises at iterator construction. -/
theorem c8_iteration_protocol_witness :
    OptionC.iter (OptionC.mkSome 1 (JVal.vArr [JVal.vInt 1, JVal.vInt 2]))
      = Except.ok [JVal.vInt 1, JVal.vInt 2] ∧
    OptionC.iter (OptionC.mkSome 1 (JVal.vInt 1)) = Except.error "is not a function" := by
  constructor
  · exact (c8_iteration_protocol [JVal.vInt 1, JVal.vInt 2] (JVal.vInt 1) JVal.vNull 1 1).1
  · exact (c8_iteration_protocol [] (JVal.vInt 1) JVal.vNull 1 1).2.2.1 rfl

/-- C9: matching an Ok(Some(Err e)) subject against the nested mapped
specification holding a function branch under Ok.Some.Ok, an inner default at
the Ok.Some level and an outer default at the top level resolves to the inner
default result, never the outer one; and a subject Ok(None), whose inner
level declares neither a branch nor a default, falls outward to the outer
default (closest-default scoping). -/
theorem c9_closest_default {ρ : Type} (e : MVal) (f : MVal → ρ) (ri ro : ρ) :
    matchMapped (MVal.mOk (MVal.mSome (MVal.mErr e))) (c9spec f ri ro) = Option.some ri ∧
    matchMapped (MVal.mOk MVal.mNone) (c9spec f ri ro) = Option.some ro :=
  ⟨rfl, rfl⟩

/-- C10: the Option all aggregate applied to an empty argument list returns a
Present container of the empty array (a new Some instance carrying the
supplied id), not the Absent singleton. -/
theorem c10_all_empty_is_present {α : Type} (fresh : Nat) :
    OptionC.allO ([] : List (OptionC α)) fresh = OptionC.mkSome fresh [] ∧
    (OptionC.allO ([] : List (OptionC α)) fresh).isSome = true :=
  ⟨rfl, rfl⟩
